import Mathlib

/-!
Verification of the Vestaboard metals-price pipeline
(`metals_scraper.py` and `vestaboard_client.py`).

Python strings are modelled as Lean `String`s (lists of characters);
Python dictionaries with fixed key sets are modelled as structures whose
optional keys become `Option` fields.  External effects (the scraped web
page, the board-send collaborator, exceptions raised by collaborators)
are modelled as explicit inputs, and each operation is a pure function of
those inputs.
-/

/-- The supported character dictionary `VESTABOARD_CHARS` from
`vestaboard_client.py`: uppercase letters, digits, limited punctuation
and the space, each mapped to its tile code. -/
def VESTABOARD_CHARS : List (String × Nat) :=
  [("A", 1), ("B", 2), ("C", 3), ("D", 4), ("E", 5), ("F", 6), ("G", 7),
   ("H", 8), ("I", 9), ("J", 10), ("K", 11), ("L", 12), ("M", 13), ("N", 14),
   ("O", 15), ("P", 16), ("Q", 17), ("R", 18), ("S", 19), ("T", 20),
   ("U", 21), ("V", 22), ("W", 23), ("X", 24), ("Y", 25), ("Z", 26),
   ("1", 27), ("2", 28), ("3", 29), ("4", 30), ("5", 31), ("6", 32),
   ("7", 33), ("8", 34), ("9", 35), ("0", 36),
   ("!", 37), ("@", 38), ("#", 39), ("$", 40), ("(", 41), (")", 42),
   ("-", 44), ("+", 46), ("&", 47), ("=", 48), (";", 49), (":", 50),
   ("\x27", 52), ("\"", 53), ("%", 54), (",", 55), (".", 56), ("/", 59),
   ("?", 60), ("°", 62), (" ", 0)]

/-- The keys of `VESTABOARD_CHARS` (the supported alphabet). -/
def keyStrings : List String := VESTABOARD_CHARS.map Prod.fst

/-- Python's `upper_char in VESTABOARD_CHARS`: dictionary key membership. -/
def inVestaboardChars (s : String) : Bool :=
  VESTABOARD_CHARS.any (fun p => p.1 == s)

/-- Model of CPython `str.upper` on one character, as the character list of
the resulting string.  Faithful on the ASCII range and on `'ß'` (whose
uppercase form is the two-character string `"SS"`); other characters are
mapped to themselves.  (CPython uppercases some further non-ASCII letters,
but apart from characters like `'ß'` — whose multi-character image can
never be a single-character dictionary key — their images are not in
`VESTABOARD_CHARS` either way, so the sanitizer's output is unaffected.) -/
def pyUpper (c : Char) : List Char :=
  if c = 'ß' then ['S', 'S'] else [c.toUpper]

/-- One iteration of the loop body of `sanitize_message`: the string
appended to the `sanitized` list for one input character — the uppercased
character when it is a key of `VESTABOARD_CHARS`, a space otherwise. -/
def sanitizePieceL (c : Char) : List Char :=
  let u := pyUpper c
  if inVestaboardChars (String.mk u) then u else [' ']

/-- The whole loop of `sanitize_message` followed by `''.join`, at the
character-list level. -/
def sanitizeCore (l : List Char) : List Char :=
  (l.map sanitizePieceL).flatten

/-- `VestaboardClient.sanitize_message` (vestaboard_client.py lines 68-98):
uppercase each character, keep it when supported, replace it with a space
otherwise, and join the pieces.  (The diagnostic `print` of replaced
characters is a side effect outside the return contract and is not
modelled.) -/
def sanitize_message (message : String) : String :=
  String.mk (sanitizeCore message.toList)

/-- `color_codes = list(range(63, 72))` from `test_color_bits`
(vestaboard_client.py lines 194-235): the nine color-tile codes. -/
def color_codes : List Nat := List.range' 63 9

/-- The inner column loop of `test_color_bits`: starting from the running
`code_index`, append `cols` cells, each `color_codes[code_index % 9]`,
incrementing `code_index` per cell. -/
def buildRowAux : Nat → Nat → List Nat
  | _, 0 => []
  | codeIndex, n + 1 =>
    color_codes.getD (codeIndex % color_codes.length) 0 ::
      buildRowAux (codeIndex + 1) n

/-- The outer row loop of `test_color_bits`: each row consumes 22 cells,
so the next row starts with `code_index` advanced by 22. -/
def buildPatternAux : Nat → Nat → List (List Nat)
  | _, 0 => []
  | codeIndex, r + 1 => buildRowAux codeIndex 22 :: buildPatternAux (codeIndex + 22) r

/-- The full 6x22 `pattern` grid built by `VestaboardClient.test_color_bits`
before it is handed to `board.raw`. -/
def test_color_bits_pattern : List (List Nat) := buildPatternAux 0 6

/-- Python `s.split(sep)` for a single-character separator, on character
lists.  As in Python, splitting the empty string yields one empty part. -/
def splitOnChar (sep : Char) : List Char → List (List Char)
  | [] => [[]]
  | c :: rest =>
    let r := splitOnChar sep rest
    if c = sep then [] :: r
    else
      match r with
      | [] => [[c]]
      | x :: xs => (c :: x) :: xs

/-- Characters removed by Python `str.strip()` (the ASCII whitespace
characters; CPython also strips some non-ASCII Unicode whitespace, which
never occurs in this pipeline's data). -/
def isPySpace (c : Char) : Bool :=
  c = ' ' || c = '\t' || c = '\n' || c = '\x0d' || c = '\x0b' || c = '\x0c'

/-- Python `str.strip()`: drop leading and trailing whitespace. -/
def pyStrip (l : List Char) : List Char :=
  ((l.dropWhile isPySpace).reverse.dropWhile isPySpace).reverse

/-- Python `str.startswith` on character lists (first argument: the
candidate leading segment). -/
def listStartsWith : List Char → List Char → Bool
  | [], _ => true
  | _ :: _, [] => false
  | a :: as, b :: bs => a = b && listStartsWith as bs

/-- The `month_map` dictionary of `format_for_vestaboard`
(metals_scraper.py lines 226-231), in insertion order (the order Python
iterates `month_map.items()`). -/
def month_map : List (String × String) :=
  [("Jan", "January"), ("Feb", "February"), ("Mar", "March"),
   ("Apr", "April"), ("May", "May"), ("Jun", "June"),
   ("Jul", "July"), ("Aug", "August"), ("Sep", "September"),
   ("Oct", "October"), ("Nov", "November"), ("Dec", "December")]

/-- The `for abbr, full in month_map.items()` loop: on the first
abbreviation that `month_day` starts with, replace that first occurrence
(which, given the `startswith` guard, is the leading segment) with the
full month name and stop. -/
def expandMonthAux : List (String × String) → List Char → List Char
  | [], monthDay => monthDay
  | (abbr, full) :: rest, monthDay =>
    if listStartsWith abbr.toList monthDay
    then full.toList ++ monthDay.drop abbr.toList.length
    else expandMonthAux rest monthDay

/-- The date-processing block of `format_for_vestaboard` (metals_scraper.py
lines 219-238) for a non-empty `date_str`: take the part before the first
comma, strip it, and expand an abbreviated leading month name. -/
def processDate (s : String) : String :=
  String.mk (expandMonthAux month_map (pyStrip ((splitOnChar ',' s.toList).headD [])))

/-- A per-metal price dictionary as consumed by `format_for_vestaboard`:
each field is `none` when the key is absent (then a `.get` default
applies). -/
structure QuoteDict where
  date : Option String
  time : Option String
  bid : Option String
  ask : Option String
deriving DecidableEq

/-- The `data` dictionary: the `gold` / `silver` entries, `none` when the
key is absent. -/
structure GSDict where
  gold : Option QuoteDict
  silver : Option QuoteDict
deriving DecidableEq

/-- The caller-facing result dictionary as read by `format_for_vestaboard`:
the `status` value (absent key gives `none`) and the `data` dictionary
(`none` when the key is absent, which `.get('data', \x7b\x7d)` defaults to
an empty dictionary).  The formatter reads no other key. -/
structure PricesData where
  status : Option String
  data : Option GSDict
deriving DecidableEq

/-- The empty dictionary default used by `.get('gold', \x7b\x7d)`. -/
def emptyQuote : QuoteDict := ⟨none, none, none, none⟩

/-- The empty dictionary default used by `.get('data', \x7b\x7d)`. -/
def emptyGS : GSDict := ⟨none, none⟩

/-- Python `'\n'.join(lines)`. -/
def joinLines : List String → String
  | [] => ""
  | [l] => l
  | l :: ls => l ++ "\n" ++ joinLines ls

/-- `MetalsScraper.format_for_vestaboard` (metals_scraper.py lines
199-251).  The `Option PricesData` input models Python `None` (or any
falsy value) versus a result dictionary.  The modelled input domain takes
a present `data` value to be a dictionary: in the source, `data` is `None`
only in error results, whose non-`success` status diverts to the error
branch before `data` is ever dereferenced. -/
def format_for_vestaboard (prices_data : Option PricesData) : String :=
  match prices_data with
  | none => "Error fetching prices"
  | some p =>
    if p.status ≠ some ("success") then "Error fetching prices"
    else
      let data := p.data.getD emptyGS
      let gold := data.gold.getD emptyQuote
      let silver := data.silver.getD emptyQuote
      let dateStr0 := gold.date.getD ("")
      let dateStr := if dateStr0 ≠ "" then processDate dateStr0 else dateStr0
      let timeStr := gold.time.getD ("")
      let datetimeDisplay := String.mk (pyStrip (dateStr ++ " " ++ timeStr).toList)
      joinLines
        ["GOLD  BID:" ++ gold.bid.getD ("N/A"),
         "      ASK:" ++ gold.ask.getD ("N/A"),
         "",
         "SILVER BID:" ++ silver.bid.getD ("N/A"),
         "       ASK:" ++ silver.ask.getD ("N/A"),
         datetimeDisplay]

/-- The per-metal dictionary returned by a successful
`MetalsScraper._fetch_metal_from_chart` (metals_scraper.py lines 176-182):
all five keys are always present. -/
structure ScrapedQuote where
  metal : String
  date : String
  time : String
  bid : String
  ask : String
deriving DecidableEq

/-- The external environment of one `_fetch_metal_from_chart` call: what
the rendered page and the local clock provide.  `raisesEx` covers any
exception inside the method's `try` block (driver failure, wait timeout,
parse exception — all caught, yielding `None`).  `bidText` is the stripped
text of the first `h3` with the bid-price classes when such an element
exists.  `askText` is the stripped text of the price `div` located by the
`Ask`-label search when that search finds one.  `capDate` / `capTime` are
the local capture timestamps. -/
structure MetalPage where
  raisesEx : Bool
  bidText : Option String
  askText : Option String
  capDate : String
  capTime : String
deriving DecidableEq

/-- Python `str.capitalize()`: first character uppercased, the rest
lowercased (ASCII model; applied only to `"gold"` / `"silver"`). -/
def pyCapitalize (s : String) : String :=
  match s.toList with
  | [] => ""
  | c :: rest => String.mk (c.toUpper :: rest.map Char.toLower)

/-- `MetalsScraper._fetch_metal_from_chart` (metals_scraper.py lines
108-188) as a function of its page environment.  Returns `none` when an
exception occurred, when the bid `h3` is absent, or when the ask search
fails or yields an empty (falsy) string; the bid text itself is not
validated further. -/
def fetchMetalFromChart (metal_name : String) (page : MetalPage) : Option ScrapedQuote :=
  if page.raisesEx then none
  else
    match page.bidText with
    | none => none
    | some bid_price =>
      match page.askText with
      | none => none
      | some ask_price =>
        if ask_price = "" then none
        else some ⟨pyCapitalize metal_name, page.capDate, page.capTime, bid_price, ask_price⟩

/-- The dictionary returned by `MetalsScraper.fetch_prices`: `data` is
`None` on error and the gold/silver pair on success; the `timeout` key is
absent (modelled `false`) except in the two timeout branches. -/
structure FetchResult where
  status : String
  message : String
  data : Option (ScrapedQuote × ScrapedQuote)
  timeout : Bool
deriving DecidableEq

/-- The external outcome of the `try` block of `fetch_prices`: either both
per-metal fetches run against their page environments (each internally
catching its own exceptions), or one of the `except` clauses of
`fetch_prices` is reached (`requests.exceptions.ReadTimeout`, another
`requests.RequestException` with message `m`, or any other exception). -/
inductive FetchOutcome where
  | pages (goldPage silverPage : MetalPage)
  | readTimeout
  | requestExc (m : String)
  | otherExc (m : String)
deriving DecidableEq

/-- The fixed user-facing timeout message of `fetch_prices`. -/
def timeoutMessage : String :=
  "kitco.com website down. Precious metals SPOT PRICES are NOT UP TO DATE."

/-- Python `sub in s` for a non-empty `sub`: `s.split(sub)` has more than
one part exactly when `sub` occurs in `s`. -/
def pyIn (sub s : String) : Bool := (s.splitOn sub).length > 1

/-- `MetalsScraper.fetch_prices` (metals_scraper.py lines 31-91): fetch
gold, fetch silver, fail the whole call when either is `None`; the
`except` clauses produce the timeout result (flagged) or a generic error
result. -/
def fetch_prices (o : FetchOutcome) : FetchResult :=
  match o with
  | .pages goldPage silverPage =>
    let gold_data := fetchMetalFromChart ("gold") goldPage
    let silver_data := fetchMetalFromChart ("silver") silverPage
    match gold_data, silver_data with
    | some g, some s =>
      ⟨"success", "Prices fetched successfully", some (g, s), false⟩
    | _, _ =>
      ⟨"error", "Failed to extract price data from Kitco", none, false⟩
  | .readTimeout => ⟨"error", timeoutMessage, none, true⟩
  | .requestExc m =>
    if pyIn ("Read timed out") m
    then ⟨"error", timeoutMessage, none, true⟩
    else ⟨"error", "Network error: " ++ m, none, false⟩
  | .otherExc m => ⟨"error", "Error fetching prices: " ++ m, none, false⟩

/-- A scraped per-metal dictionary, viewed through the formatter's
optional-key lens: all four keys the formatter reads are present. -/
def toQuoteDict (q : ScrapedQuote) : QuoteDict :=
  ⟨some q.date, some q.time, some q.bid, some q.ask⟩

/-- A `fetch_prices` result, viewed through the formatter's lens (the same
dictionary object is passed along in the source). -/
def toPricesData (r : FetchResult) : PricesData :=
  ⟨some r.status, r.data.map (fun p => ⟨some (toQuoteDict p.1), some (toQuoteDict p.2)⟩)⟩

/-- The caller-facing part of the dictionary returned by
`VestaboardClient.display_metals_prices`. -/
structure DMPResult where
  status : String
  message : String
deriving DecidableEq

/-- The success summary string built by `display_metals_prices`
(vestaboard_client.py lines 269-272).  The `none` branch mirrors Python
rendering the absent values as `None`; it is unreachable for success
results. -/
def successSummary (r : FetchResult) : String :=
  match r.data with
  | some (g, s) =>
    "Prices displayed successfully!\nGold: Bid $" ++ g.bid ++ ", Ask $" ++ g.ask ++
      "\nSilver: Bid $" ++ s.bid ++ ", Ask $" ++ s.ask
  | none =>
    "Prices displayed successfully!\nGold: Bid $None, Ask $None\nSilver: Bid $None, Ask $None"

/-- `VestaboardClient.display_metals_prices` (vestaboard_client.py lines
237-278) as a function of the fetch outcome and of the board-send
collaborator's behaviour: `postEx = some e` means `board.post` raises an
exception rendered as `e` (caught by the outer `except`), `none` means it
succeeds.  Returns the caller-facing result together with the list of
strings the board-send collaborator was invoked with, in order (an
invocation is recorded even when it raises). -/
def display_metals_prices (o : FetchOutcome) (postEx : Option String) :
    DMPResult × List String :=
  let result := fetch_prices o
  if result.status ≠ "success" then
    if result.timeout then
      match postEx with
      | none =>
        (⟨"error", "Timeout error displayed on Vestaboard: " ++ result.message⟩,
         [result.message])
      | some e =>
        (⟨"error", "Error displaying metals prices: " ++ e⟩, [result.message])
    else (⟨result.status, result.message⟩, [])
  else
    let message := format_for_vestaboard (some (toPricesData result))
    match postEx with
    | none => (⟨"success", successSummary result⟩, [message])
    | some e => (⟨"error", "Error displaying metals prices: " ++ e⟩, [message])

/-- The successful snapshot of claim C4, as the result dictionary the
formatter receives (capture date and time live in each metal's record). -/
def snapshotC4 : Option PricesData :=
  some ⟨some ("success"),
    some ⟨some ⟨some ("Oct 10, 2025"), some ("02:30 PM"),
                some ("4,015.50"), some ("4,016.20")⟩,
          some ⟨some ("Oct 10, 2025"), some ("02:30 PM"),
                some ("49.10"), some ("49.35")⟩⟩⟩

/-- A gold page whose bid and ask are both located with non-empty text. -/
def goldPageGood : MetalPage :=
  ⟨false, some ("4,015.50"), some ("4,016.20"), "Oct 10, 2025", "02:30 PM"⟩

/-- A silver page whose bid and ask are both located with non-empty text. -/
def silverPageGood : MetalPage :=
  ⟨false, some ("49.10"), some ("49.35"), "Oct 10, 2025", "02:30 PM"⟩

/-- A gold page whose bid `h3` element exists but carries empty text. -/
def goldPageEmptyBid : MetalPage :=
  ⟨false, some (""), some ("4,016.20"), "Oct 10, 2025", "02:30 PM"⟩

/-- A silver page on which the ask-label search finds nothing. -/
def silverPageNoAsk : MetalPage :=
  ⟨false, some ("49.10"), none, "Oct 10, 2025", "02:30 PM"⟩

/-- Predicate for the domain proviso of the amended claim C9: the string
contains no newline character. -/
def strNoNewline (s : String) : Bool := decide (('\n' : Char) ∉ s.toList)

/-- All four fields a quote may carry are newline-free (absent fields
count as newline-free). -/
def quoteNoNewline (q : QuoteDict) : Bool :=
  strNoNewline (q.date.getD ("")) && strNoNewline (q.time.getD ("")) &&
    strNoNewline (q.bid.getD ("")) && strNoNewline (q.ask.getD (""))

/-- The field values of the snapshot (of both metals) are newline-free. -/
def pdNoNewline : Option PricesData → Bool
  | none => true
  | some p =>
    match p.data with
    | none => true
    | some d =>
      quoteNoNewline (d.gold.getD emptyQuote) && quoteNoNewline (d.silver.getD emptyQuote)

/-- Replace a quote's missing bid/ask fields by the literal `N/A`. -/
def fillQuote (q : QuoteDict) : QuoteDict :=
  ⟨q.date, q.time, some (q.bid.getD ("N/A")), some (q.ask.getD ("N/A"))⟩

/-- Replace every missing bid/ask field of the snapshot by the literal
`N/A` (quotes and data left absent stay absent). -/
def fillNA : Option PricesData → Option PricesData
  | none => none
  | some p =>
    some ⟨p.status,
      p.data.map (fun d =>
        ⟨some (fillQuote (d.gold.getD emptyQuote)),
         some (fillQuote (d.silver.getD emptyQuote))⟩)⟩

/-- A successful snapshot whose gold bid string contains a newline
character. -/
def snapshotBadNewline : Option PricesData :=
  some ⟨some ("success"),
    some ⟨some ⟨some ("Oct 10, 2025"), some ("02:30 PM"),
                some ("1\n2"), some ("4,016.20")⟩,
          some ⟨none, none, some ("49.10"), some ("49.35")⟩⟩⟩

/-- A successful snapshot with a missing gold ask field and newline-free
field values. -/
def snapshotMissingAsk : Option PricesData :=
  some ⟨some ("success"),
    some ⟨some ⟨some ("Oct 10, 2025"), some ("02:30 PM"),
                some ("4,015.50"), none⟩,
          some ⟨none, none, some ("49.10"), some ("49.35")⟩⟩⟩

/-! ### Basic string facts used throughout -/

theorem toList_append (s t : String) : (s ++ t).toList = s.toList ++ t.toList := rfl

theorem toList_mk (l : List Char) : (String.mk l).toList = l := rfl

theorem length_toList (s : String) : s.length = s.toList.length := rfl

/-! ### Sanitizer lemmas -/

theorem mem_keyStrings_of_inVB {s : String} (h : inVestaboardChars s = true) :
    s ∈ keyStrings := by
  rcases List.any_eq_true.mp h with ⟨p, hp, hbeq⟩
  have he : p.1 = s := eq_of_beq hbeq
  exact he ▸ List.mem_map_of_mem Prod.fst hp

theorem inVB_of_mem_keyStrings {s : String} (h : s ∈ keyStrings) :
    inVestaboardChars s = true := by
  rcases List.mem_map.mp h with ⟨p, hp, rfl⟩
  exact List.any_eq_true.mpr ⟨p, hp, by simp⟩

theorem keyStrings_length : ∀ s ∈ keyStrings, s.toList.length = 1 := by decide

theorem sanitizePieceL_cases (c : Char) :
    sanitizePieceL c = [' '] ∨ String.mk (sanitizePieceL c) ∈ keyStrings := by
  simp only [sanitizePieceL]
  by_cases h : inVestaboardChars (String.mk (pyUpper c)) = true
  · rw [if_pos h]; exact Or.inr (mem_keyStrings_of_inVB h)
  · rw [if_neg h]; exact Or.inl rfl

theorem sanitizePieceL_length (c : Char) : (sanitizePieceL c).length = 1 := by
  rcases sanitizePieceL_cases c with h | h
  · rw [h]; rfl
  · have hl := keyStrings_length _ h
    rwa [toList_mk] at hl

theorem sanitizeCore_cons (c : Char) (t : List Char) :
    sanitizeCore (c :: t) = sanitizePieceL c ++ sanitizeCore t := by
  simp [sanitizeCore]

theorem sanitizeCore_length (l : List Char) : (sanitizeCore l).length = l.length := by
  induction l with
  | nil => rfl
  | cons c t ih =>
    rw [sanitizeCore_cons, List.length_append, sanitizePieceL_length, ih, List.length_cons]
    omega

theorem mem_sanitizeCore {l : List Char} {c : Char} (h : c ∈ sanitizeCore l) :
    c = ' ' ∨ inVestaboardChars (String.mk [c]) = true := by
  induction l with
  | nil => simp [sanitizeCore] at h
  | cons c0 t ih =>
    rw [sanitizeCore_cons] at h
    rcases List.mem_append.mp h with h | h
    · rcases sanitizePieceL_cases c0 with hp | hp
      · rw [hp] at h
        exact Or.inl (by simpa using h)
      · right
        rcases List.length_eq_one.mp (sanitizePieceL_length c0) with ⟨a, ha⟩
        rw [ha] at h hp
        have hca : c = a := by simpa using h
        subst hca
        exact inVB_of_mem_keyStrings hp
    · exact ih h

/-- Claim C5: for every input string (the empty string and characters such
as `'ß'` included), `sanitize_message` preserves the length of its input,
and every character of the output is a space or a key of
`VESTABOARD_CHARS`. -/
theorem C5_sanitize_length_and_alphabet (x : String) :
    (sanitize_message x).length = x.length ∧
    ((sanitize_message x).toList.all
      (fun c => c == ' ' || inVestaboardChars (String.mk [c]))) = true := by
  constructor
  · show (sanitizeCore x.toList).length = x.toList.length
    exact sanitizeCore_length _
  · rw [List.all_eq_true]
    intro c hc
    have hc' : c ∈ sanitizeCore x.toList := hc
    rcases mem_sanitizeCore hc' with h | h
    · simp [h]
    · simp [h]

theorem sanitizeCore_append (a b : List Char) :
    sanitizeCore (a ++ b) = sanitizeCore a ++ sanitizeCore b := by
  simp [sanitizeCore]

theorem keys_sanitizeCore_fix : ∀ s ∈ keyStrings, sanitizeCore s.toList = s.toList := by
  decide

theorem sanitizeCore_piece_fix (c : Char) :
    sanitizeCore (sanitizePieceL c) = sanitizePieceL c := by
  rcases sanitizePieceL_cases c with h | h
  · rw [h]; decide
  · have hf := keys_sanitizeCore_fix _ h
    rwa [toList_mk] at hf

theorem sanitizeCore_idem (l : List Char) :
    sanitizeCore (sanitizeCore l) = sanitizeCore l := by
  induction l with
  | nil => rfl
  | cons c t ih => rw [sanitizeCore_cons, sanitizeCore_append, sanitizeCore_piece_fix, ih]

/-- Claim C8: the character sanitizer is idempotent — sanitizing an
already-sanitized string changes nothing. -/
theorem C8_sanitize_idempotent (x : String) :
    sanitize_message (sanitize_message x) = sanitize_message x := by
  show String.mk (sanitizeCore (String.mk (sanitizeCore x.toList)).toList) = _
  rw [toList_mk, sanitizeCore_idem]
  rfl

/-! ### Color pattern (claim C7) -/

/-- Claim C7: the grid built by `test_color_bits` has exactly 6 rows of 22
columns, cell `(r, c)` holds code `63 + ((r*22 + c) mod 9)`, and every
code lies in the color-tile range 63..71. -/
theorem C7_color_pattern :
    test_color_bits_pattern.length = 6 ∧
    (test_color_bits_pattern.all (fun row => row.length == 22)) = true ∧
    ((List.range 6).all (fun r => (List.range 22).all (fun c =>
      (test_color_bits_pattern.getD r []).getD c 0 == 63 + ((r * 22 + c) % 9)))) = true ∧
    (test_color_bits_pattern.all (fun row =>
      row.all (fun v => decide (63 ≤ v ∧ v ≤ 71)))) = true := by
  decide

/-! ### Formatter on concrete and error inputs (claims C4 and C10) -/

/-- Claim C4: on the concrete snapshot, `format_for_vestaboard` returns
exactly the six-line string with "Oct" expanded to "October", the year
dropped and the time unmodified. -/
theorem C4_format_concrete :
    format_for_vestaboard snapshotC4 =
      "GOLD  BID:4,015.50\n      ASK:4,016.20\n\nSILVER BID:49.10\n       ASK:49.35\nOctober 10 02:30 PM" := by
  decide

/-- Claim C10: on an empty/`None` input, or one whose status is not
`success`, the formatter returns the fixed one-line error string. -/
theorem C10_format_error_input (pd : Option PricesData)
    (h : pd.bind PricesData.status ≠ some ("success")) :
    format_for_vestaboard pd = "Error fetching prices" := by
  cases pd with
  | none => rfl
  | some p =>
    have hs : p.status ≠ some ("success") := by simpa using h
    simp only [format_for_vestaboard, if_pos hs]

theorem C10_witness :
    format_for_vestaboard (some ⟨some ("error"), none⟩) = "Error fetching prices" :=
  C10_format_error_input (some ⟨some ("error"), none⟩) (by decide)

/-! ### Price extractor (claim C1) -/

theorem fetchMetal_ask_ne {n : String} {p : MetalPage} {q : ScrapedQuote}
    (h : fetchMetalFromChart n p = some q) : q.ask ≠ "" := by
  rcases p with ⟨re, bt, askt, cd, ct⟩
  cases re <;> cases bt <;> cases askt <;> simp only [fetchMetalFromChart] at h <;>
    simp at h
  obtain ⟨hne, rfl⟩ := h
  simpa using hne

/-- Claim C1 (amended): `fetch_prices` is all-or-nothing — on success the
result carries both a gold and a silver record, each with a bid string and
a non-empty ask string (the bid string itself may be empty, since only the
bid element's presence is checked, not its text); on any non-success
result the price data is `None`. -/
theorem C1_fetch_all_or_nothing (o : FetchOutcome) :
    ((fetch_prices o).status = "success" →
      ∃ g s, (fetch_prices o).data = some (g, s) ∧ g.ask ≠ "" ∧ s.ask ≠ "") ∧
    ((fetch_prices o).status ≠ "success" → (fetch_prices o).data = none) := by
  cases o with
  | pages gp sp =>
    rcases hg : fetchMetalFromChart ("gold") gp with _ | g
    · rcases hs : fetchMetalFromChart ("silver") sp with _ | s
      · exact ⟨fun h => absurd h (by simp [fetch_prices, hg, hs]),
               fun _ => by simp [fetch_prices, hg, hs]⟩
      · exact ⟨fun h => absurd h (by simp [fetch_prices, hg, hs]),
               fun _ => by simp [fetch_prices, hg, hs]⟩
    · rcases hs : fetchMetalFromChart ("silver") sp with _ | s
      · exact ⟨fun h => absurd h (by simp [fetch_prices, hg, hs]),
               fun _ => by simp [fetch_prices, hg, hs]⟩
      · exact ⟨fun _ => ⟨g, s, by simp [fetch_prices, hg, hs],
                         fetchMetal_ask_ne hg, fetchMetal_ask_ne hs⟩,
               fun h => absurd (by simp [fetch_prices, hg, hs]) h⟩
  | readTimeout =>
    refine ⟨fun h => ?_, fun _ => rfl⟩
    simp [fetch_prices] at h
  | requestExc m =>
    cases hpy : pyIn ("Read timed out") m
    · refine ⟨fun h => ?_, fun _ => ?_⟩
      · simp [fetch_prices, hpy] at h
      · simp [fetch_prices, hpy]
    · refine ⟨fun h => ?_, fun _ => ?_⟩
      · simp [fetch_prices, hpy] at h
      · simp [fetch_prices, hpy]
  | otherExc m =>
    refine ⟨fun h => ?_, fun _ => rfl⟩
    simp [fetch_prices] at h

theorem C1_witness :
    ∃ g s, (fetch_prices (.pages goldPageGood silverPageGood)).data = some (g, s) ∧
      g.ask ≠ "" ∧ s.ask ≠ "" :=
  (C1_fetch_all_or_nothing (.pages goldPageGood silverPageGood)).1 (by decide)

/-- Counterexample to claim C1 as stated: when the bid element of the gold
page exists but its stripped text is empty, `fetch_prices` still reports
success, with a gold record whose bid string is empty — so "a non-empty
bid string" does not hold for every successful record. -/
theorem C1_counterexample :
    (fetch_prices (.pages goldPageEmptyBid silverPageGood)).status = "success" ∧
    ((fetch_prices (.pages goldPageEmptyBid silverPageGood)).data.map
      (fun p => p.1.bid)) = some ("") := by
  decide

/-! ### Orchestrator (claims C2, C3, C6) -/

theorem fetch_timeout_shape {o : FetchOutcome} (h : (fetch_prices o).timeout = true) :
    fetch_prices o = ⟨"error", timeoutMessage, none, true⟩ := by
  cases o with
  | pages gp sp =>
    exfalso
    rcases hg : fetchMetalFromChart ("gold") gp with _ | g <;>
      rcases hs : fetchMetalFromChart ("silver") sp with _ | s <;>
        simp [fetch_prices, hg, hs] at h
  | readTimeout => rfl
  | requestExc m =>
    cases hpy : pyIn ("Read timed out") m
    · simp [fetch_prices, hpy] at h
    · simp [fetch_prices, hpy]
  | otherExc m => simp [fetch_prices] at h

theorem fetch_status_error {o : FetchOutcome} (h : (fetch_prices o).status ≠ "success") :
    (fetch_prices o).status = "error" := by
  cases o with
  | pages gp sp =>
    rcases hg : fetchMetalFromChart ("gold") gp with _ | g <;>
      rcases hs : fetchMetalFromChart ("silver") sp with _ | s <;>
        simp [fetch_prices, hg, hs] at h ⊢
  | readTimeout => rfl
  | requestExc m => cases hpy : pyIn ("Read timed out") m <;> simp [fetch_prices, hpy]
  | otherExc m => rfl

/-- Claim C2: whenever the extractor reports a timeout,
`display_metals_prices` returns status `error` and the board-send
collaborator is invoked exactly once, with the fixed timeout message as
its argument (the formatter is bypassed). -/
theorem C2_display_timeout (o : FetchOutcome) (postEx : Option String)
    (h : (fetch_prices o).timeout = true) :
    (display_metals_prices o postEx).1.status = "error" ∧
    (display_metals_prices o postEx).2 = [timeoutMessage] := by
  have hfp := fetch_timeout_shape h
  cases postEx <;> simp [display_metals_prices, hfp, timeoutMessage]

theorem C2_witness :
    (fetch_prices .readTimeout).timeout = true ∧
    ((display_metals_prices .readTimeout none).1.status = "error" ∧
     (display_metals_prices .readTimeout none).2 = [timeoutMessage]) :=
  ⟨rfl, C2_display_timeout .readTimeout none rfl⟩

/-- Claim C6: when extraction fails for a non-timeout reason (for example
a missing ask price), `display_metals_prices` returns status `error` and
the board-send collaborator is never invoked. -/
theorem C6_display_error_no_post (o : FetchOutcome) (postEx : Option String)
    (h1 : (fetch_prices o).status ≠ "success") (h2 : (fetch_prices o).timeout = false) :
    (display_metals_prices o postEx).1.status = "error" ∧
    (display_metals_prices o postEx).2 = [] := by
  have hst := fetch_status_error h1
  refine ⟨?_, ?_⟩ <;> simp [display_metals_prices, hst, h2]

theorem C6_witness :
    ((fetch_prices (.pages goldPageGood silverPageNoAsk)).status ≠ "success" ∧
     (fetch_prices (.pages goldPageGood silverPageNoAsk)).timeout = false) ∧
    ((display_metals_prices (.pages goldPageGood silverPageNoAsk) none).1.status = "error" ∧
     (display_metals_prices (.pages goldPageGood silverPageNoAsk) none).2 = []) :=
  ⟨⟨by decide, rfl⟩,
   C6_display_error_no_post (.pages goldPageGood silverPageNoAsk) none (by decide) rfl⟩

/-- Claim C3 (amended): on a successful extraction the string handed to
the board-send collaborator is the display formatter's output unmodified;
the character sanitizer is not applied on this path (it is applied only
inside `send_message`, which `display_metals_prices` does not call). -/
theorem C3_display_posts_formatter_output (o : FetchOutcome) (postEx : Option String)
    (h : (fetch_prices o).status = "success") :
    (display_metals_prices o postEx).2 =
      [format_for_vestaboard (some (toPricesData (fetch_prices o)))] := by
  cases postEx <;> simp [display_metals_prices, h]

theorem C3_witness :
    (display_metals_prices (.pages goldPageGood silverPageGood) none).2 =
      [format_for_vestaboard (some (toPricesData
        (fetch_prices (.pages goldPageGood silverPageGood))))] :=
  C3_display_posts_formatter_output (.pages goldPageGood silverPageGood) none (by decide)

/-- Counterexample to claim C3 as stated: on this successful fetch, the
string handed to the board-send collaborator differs from the sanitizer
applied to the formatter's output — `display_metals_prices` posts the raw
formatter output, whose newlines and lowercase letters `sanitize_message`
would rewrite. -/
theorem C3_counterexample :
    (display_metals_prices (.pages goldPageGood silverPageGood) none).2 ≠
      [sanitize_message (format_for_vestaboard (some (toPricesData
        (fetch_prices (.pages goldPageGood silverPageGood)))))] := by
  decide

/-! ### Formatter totality and line bound (claim C9) -/

theorem splitOnChar_ne_nil (sep : Char) (l : List Char) : splitOnChar sep l ≠ [] := by
  cases l with
  | nil => simp [splitOnChar]
  | cons c rest =>
    simp only [splitOnChar]
    by_cases h : c = sep
    · rw [if_pos h]; simp
    · rw [if_neg h]
      cases splitOnChar sep rest <;> simp

theorem mem_of_mem_splitOnChar {sep : Char} {l p : List Char} {c : Char}
    (hp : p ∈ splitOnChar sep l) (hc : c ∈ p) : c ∈ l := by
  induction l generalizing p with
  | nil =>
    simp [splitOnChar] at hp
    subst hp
    simp at hc
  | cons c0 rest ih =>
    simp only [splitOnChar] at hp
    by_cases h0 : c0 = sep
    · rw [if_pos h0] at hp
      rcases List.mem_cons.mp hp with rfl | hp'
      · simp at hc
      · exact List.mem_cons_of_mem _ (ih hp' hc)
    · rw [if_neg h0] at hp
      cases hr : splitOnChar sep rest with
      | nil => exact absurd hr (splitOnChar_ne_nil sep rest)
      | cons x xs =>
        rw [hr] at hp
        rcases List.mem_cons.mp hp with rfl | hp'
        · rcases List.mem_cons.mp hc with rfl | hc'
          · exact List.mem_cons_self _ _
          · have hx : x ∈ splitOnChar sep rest := by
              rw [hr]; exact List.mem_cons_self x xs
            exact List.mem_cons_of_mem _ (ih hx hc')
        · have hpx : p ∈ splitOnChar sep rest := by
            rw [hr]; exact List.mem_cons_of_mem x hp'
          exact List.mem_cons_of_mem _ (ih hpx hc)

theorem mem_pyStrip {l : List Char} {c : Char} (h : c ∈ pyStrip l) : c ∈ l := by
  unfold pyStrip at h
  rw [List.mem_reverse] at h
  have h2 : c ∈ (l.dropWhile isPySpace).reverse :=
    List.Sublist.mem h (List.dropWhile_sublist _)
  rw [List.mem_reverse] at h2
  exact List.Sublist.mem h2 (List.dropWhile_sublist _)

theorem mem_expandMonthAux {m : List (String × String)} {md : List Char} {c : Char}
    (h : c ∈ expandMonthAux m md) : c ∈ md ∨ ∃ pr ∈ m, c ∈ pr.2.toList := by
  induction m with
  | nil => exact Or.inl h
  | cons pr rest ih =>
    obtain ⟨abbr, full⟩ := pr
    simp only [expandMonthAux] at h
    by_cases hs : listStartsWith abbr.toList md = true
    · rw [if_pos hs] at h
      rcases List.mem_append.mp h with h' | h'
      · exact Or.inr ⟨(abbr, full), List.mem_cons_self _ _, h'⟩
      · exact Or.inl (List.mem_of_mem_drop h')
    · rw [if_neg hs] at h
      rcases ih h with h' | ⟨pr', hm, hc⟩
      · exact Or.inl h'
      · exact Or.inr ⟨pr', List.mem_cons_of_mem _ hm, hc⟩

theorem month_map_no_newline : ∀ pr ∈ month_map, ('\n' : Char) ∉ pr.2.toList := by
  decide

theorem processDate_no_newline {s : String} (h : ('\n' : Char) ∉ s.toList) :
    ('\n' : Char) ∉ (processDate s).toList := by
  intro hmem
  rw [processDate, toList_mk] at hmem
  rcases mem_expandMonthAux hmem with h1 | ⟨pr, hm, hc⟩
  · have h2 := mem_pyStrip h1
    cases hr : splitOnChar ',' s.toList with
    | nil => exact absurd hr (splitOnChar_ne_nil _ _)
    | cons x xs =>
      rw [hr] at h2
      simp only [List.headD_cons] at h2
      have hx : x ∈ splitOnChar ',' s.toList := by
        rw [hr]; exact List.mem_cons_self x xs
      exact h (mem_of_mem_splitOnChar hx h2)
  · exact month_map_no_newline pr hm hc

theorem count_getD_na {o : Option String} (h : strNoNewline (o.getD ("")) = true) :
    (o.getD ("N/A")).toList.count ('\n') = 0 := by
  cases o with
  | none => decide
  | some s =>
    simp only [Option.getD_some] at h ⊢
    rw [List.count_eq_zero]
    exact of_decide_eq_true h

theorem count_datetime_zero {gdate gtime : Option String}
    (hd : strNoNewline (gdate.getD ("")) = true)
    (ht : strNoNewline (gtime.getD ("")) = true) :
    (String.mk (pyStrip (((if gdate.getD ("") ≠ "" then processDate (gdate.getD (""))
        else gdate.getD ("")) ++ " " ++ gtime.getD ("")).toList))).toList.count ('\n') = 0 := by
  rw [toList_mk, List.count_eq_zero]
  intro hm
  have hm2 := mem_pyStrip hm
  rw [toList_append, toList_append] at hm2
  rcases List.mem_append.mp hm2 with hm3 | hm3
  · rcases List.mem_append.mp hm3 with hm4 | hm4
    · have hnd : ('\n' : Char) ∉ (gdate.getD ("")).toList := of_decide_eq_true hd
      by_cases hne : gdate.getD ("") ≠ ""
      · rw [if_pos hne] at hm4
        exact processDate_no_newline hnd hm4
      · rw [if_neg hne] at hm4
        exact hnd hm4
    · exact absurd hm4 (by decide)
  · exact (of_decide_eq_true ht) hm3

theorem count_joinLines6 (a b c d e f : String) :
    ((joinLines [a, b, c, d, e, f]).toList.count ('\n')) =
      a.toList.count ('\n') + b.toList.count ('\n') + c.toList.count ('\n') +
        d.toList.count ('\n') + e.toList.count ('\n') + f.toList.count ('\n') + 5 := by
  have h1 : ("\n" : String).toList.count ('\n') = 1 := rfl
  simp only [joinLines, toList_append, List.count_append, h1]
  omega

theorem format_fillNA (pd : Option PricesData) :
    format_for_vestaboard pd = format_for_vestaboard (fillNA pd) := by
  cases pd with
  | none => rfl
  | some p =>
    rcases p with ⟨st, dt⟩
    by_cases hs : st = some ("success")
    · subst hs
      cases dt with
      | none => rfl
      | some d => rfl
    · have h1 : format_for_vestaboard (some ⟨st, dt⟩) = "Error fetching prices" := by
        simp only [format_for_vestaboard]
        rw [if_pos hs]
      have h2 : format_for_vestaboard (fillNA (some ⟨st, dt⟩)) = "Error fetching prices" := by
        simp only [fillNA, format_for_vestaboard]
        rw [if_pos hs]
      rw [h1, h2]

/-- Claim C9 (amended): `format_for_vestaboard` is a total function (a
total Lean function here; every dictionary access in the source carries a
default); whenever the snapshot's field strings are newline-free, its
output contains at most five newline characters — at most six
newline-delimited lines; and missing bid/ask fields render as the literal
`N/A`: the output is unchanged when every missing bid/ask field is
replaced by the string `N/A`.  (A field value that itself contains a
newline can push the output beyond six lines.) -/
theorem C9_format_six_lines_and_na (pd : Option PricesData)
    (h : pdNoNewline pd = true) :
    ((format_for_vestaboard pd).toList.count ('\n')) ≤ 5 ∧
    format_for_vestaboard pd = format_for_vestaboard (fillNA pd) := by
  refine ⟨?_, format_fillNA pd⟩
  cases pd with
  | none => decide
  | some p =>
    rcases p with ⟨st, dt⟩
    by_cases hs : st = some ("success")
    case neg =>
      have he : format_for_vestaboard (some ⟨st, dt⟩) = "Error fetching prices" := by
        simp only [format_for_vestaboard]
        rw [if_pos hs]
      rw [he]
      decide
    case pos =>
      subst hs
      cases dt with
      | none => decide
      | some d =>
        simp only [pdNoNewline, Bool.and_eq_true] at h
        obtain ⟨hg, hsv⟩ := h
        simp only [quoteNoNewline, Bool.and_eq_true] at hg hsv
        obtain ⟨⟨⟨hgdate, hgtime⟩, hgbid⟩, hgask⟩ := hg
        obtain ⟨⟨⟨hsdate, hstime⟩, hsbid⟩, hsask⟩ := hsv
        have hred : format_for_vestaboard (some ⟨some ("success"), some d⟩) =
            joinLines
              ["GOLD  BID:" ++ (d.gold.getD emptyQuote).bid.getD ("N/A"),
               "      ASK:" ++ (d.gold.getD emptyQuote).ask.getD ("N/A"),
               "",
               "SILVER BID:" ++ (d.silver.getD emptyQuote).bid.getD ("N/A"),
               "       ASK:" ++ (d.silver.getD emptyQuote).ask.getD ("N/A"),
               String.mk (pyStrip (((if (d.gold.getD emptyQuote).date.getD ("") ≠ ""
                   then processDate ((d.gold.getD emptyQuote).date.getD (""))
                   else (d.gold.getD emptyQuote).date.getD ("")) ++ " " ++
                 (d.gold.getD emptyQuote).time.getD ("")).toList))] := by
          simp only [format_for_vestaboard]
          rw [if_neg (by simp)]
          rfl
        rw [hred, count_joinLines6]
        have l1 : ("GOLD  BID:" ++ (d.gold.getD emptyQuote).bid.getD ("N/A")).toList.count ('\n') = 0 := by
          rw [toList_append, List.count_append, count_getD_na hgbid]
          decide
        have l2 : ("      ASK:" ++ (d.gold.getD emptyQuote).ask.getD ("N/A")).toList.count ('\n') = 0 := by
          rw [toList_append, List.count_append, count_getD_na hgask]
          decide
        have l3 : ("" : String).toList.count ('\n') = 0 := rfl
        have l4 : ("SILVER BID:" ++ (d.silver.getD emptyQuote).bid.getD ("N/A")).toList.count ('\n') = 0 := by
          rw [toList_append, List.count_append, count_getD_na hsbid]
          decide
        have l5 : ("       ASK:" ++ (d.silver.getD emptyQuote).ask.getD ("N/A")).toList.count ('\n') = 0 := by
          rw [toList_append, List.count_append, count_getD_na hsask]
          decide
        have l6 := count_datetime_zero hgdate hgtime
        rw [l1, l2, l3, l4, l5, l6]

theorem C9_witness :
    pdNoNewline snapshotMissingAsk = true ∧
    (((format_for_vestaboard snapshotMissingAsk).toList.count ('\n')) ≤ 5 ∧
     format_for_vestaboard snapshotMissingAsk =
       format_for_vestaboard (fillNA snapshotMissingAsk)) :=
  ⟨by decide, C9_format_six_lines_and_na snapshotMissingAsk (by decide)⟩

/-- Counterexample to claim C9 as stated: a snapshot whose gold bid string
itself contains a newline makes the formatter emit six newline characters,
i.e. seven newline-delimited lines — more than the claimed maximum of
six. -/
theorem C9_counterexample :
    ((format_for_vestaboard snapshotBadNewline).toList.count ('\n')) + 1 = 7 := by
  decide
